import Mathlib

/-!
Verification development for the `rod` derive-macro validation library.

The Rust sources are shallowly embedded:
* the runtime error taxonomy (`src/src/errors`) becomes `Rod.Err` and
  `Rod.RodValidateErrorList`;
* the parsed per-kind attribute contents (`src/rod_derive/src/types/*.rs`)
  become `Rod.RodAttrContent`;
* the validation code emitted by `get_validations` /
  `get_validations_with_custom_error` is embedded as functions from values to
  error lists (collect-all policy) and to an optional first error (fail-fast
  policy), following the token streams produced by the generator;
* the compile-time type checker (`assert_type!` and the `recurse_*` helpers of
  `src/rod_derive/src/lib.rs`) is embedded over a model of Rust types.
-/

namespace Rod

/-- `LengthOrSize` from `src/rod_derive/src/types/mod.rs`: an exact value or a
range (`ExprRange`, with optional bounds and an inclusive/exclusive upper end). -/
inductive LengthOrSize where
  | exact (n : Int)
  | range (lo hi : Option Int) (inclusive : Bool)
  deriving DecidableEq, Repr

/-- Containment test matching the generated `(#range).contains(&x)` /
`x != #exact` checks (`true` means the value is acceptable). -/
def LengthOrSize.holds : LengthOrSize → Int → Bool
  | .exact n, v => v == n
  | .range lo hi inclusive, v =>
      (match lo with | some l => decide (l ≤ v) | none => true) &&
      (match hi with
        | some h => if inclusive then decide (v ≤ h) else decide (v < h)
        | none => true)

/-- `NumberSign` from `src/rod_derive/src/types/mod.rs`. -/
inductive NumberSign where
  | positive | negative | nonpositive | nonnegative
  deriving DecidableEq, Repr

/-- Sign check emitted by `RodIntegerContent::get_validations`
(`*f > 0`, `*f < 0`, `*f <= 0`, `*f >= 0`). -/
def NumberSign.holdsInt : NumberSign → Int → Bool
  | .positive, v => decide (0 < v)
  | .negative, v => decide (v < 0)
  | .nonpositive, v => decide (v ≤ 0)
  | .nonnegative, v => decide (0 ≤ v)

/-- Token rendered into the `Sign` error payload (`ToTokens for NumberSign`). -/
def NumberSign.token : NumberSign → String
  | .positive => "Positive"
  | .negative => "Negative"
  | .nonpositive => "Nonpositive"
  | .nonnegative => "Nonnegative"

/-- The runtime error taxonomy (`RodValidateError` of `src/src/errors/mod.rs`
together with the per-kind variant enums).  Formatted expectation strings are
kept as the structured data they are built from. -/
inductive Err where
  | stringLength (path : String) (value : String) (expect : LengthOrSize)
  | stringFormat (path : String) (value : String) (fmt : String)
  | stringStartsWith (path : String) (value : String) (expected : String)
  | stringEndsWith (path : String) (value : String) (expected : String)
  | stringIncludes (path : String) (value : String) (expected : String)
  | intSize (path : String) (value : Int) (expect : LengthOrSize)
  | intSign (path : String) (value : Int) (sign : String)
  | intStep (path : String) (value : Int) (step : Int)
  | literalValue (path : String) (value : String) (expected : String)
  | optionNone (path : String) (innerTy : String)
  | optionSome (path : String) (valueRepr : String)
  | iterLength (path : String) (len : Nat) (expect : LengthOrSize)
  | checkFailed (path : String)
  | userDefined (msg : String)
  deriving DecidableEq, Repr

/-- `user_defined_error` choice: a custom message produces `UserDefined`,
otherwise the structured error is emitted. -/
def emitErr (msg : Option String) (structured : Err) : Err :=
  match msg with
  | some m => .userDefined m
  | none => structured

/-- One emitted check of the generated code: `if <fails> { <emit err>; }` under
the collect-all continuation (`errors.push`). -/
def failCheck (fails : Bool) (e : Err) : List Err :=
  if fails then [e] else []

/-- One emitted check under the fail-fast continuation (`return Err(e)`). -/
def failCheckF (fails : Bool) (e : Err) : Option Err :=
  if fails then some e else none

/-- An optional constraint under the collect-all continuation: each Rust
content maps its optional constraint (`self.xxx.as_ref().map(|x| ...)`) to an
optional check, and splices nothing when absent. -/
def optCheck {α : Type} (o : Option α) (fails : α → Bool) (e : α → Err) : List Err :=
  match o with
  | some x => failCheck (fails x) (e x)
  | none => []

/-- The same optional constraint under the fail-fast continuation. -/
def optCheckF {α : Type} (o : Option α) (fails : α → Bool) (e : α → Err) : Option Err :=
  match o with
  | some x => failCheckF (fails x) (e x)
  | none => none

/-- Literal values usable in a `Literal { value: ... }` attribute. -/
inductive LitValue where
  | i (n : Int)
  | s (str : String)
  | b (bv : Bool)
  deriving DecidableEq, Repr

def LitValue.text : LitValue → String
  | .i n => toString n
  | .s str => str
  | .b bv => toString bv

/-- Runtime values being validated.  `custom` stands for a field value of a
user type whose own `RodValidate` implementation is itself derived; such a
value is abstracted by the error list its derived `validate_all` returns
(its derived `validate` then returns the head of that list). -/
inductive Value where
  | vstr (s : String)
  | vint (n : Int)
  | vbool (b : Bool)
  | vopt (o : Option Value)
  | vtuple (vs : List Value)
  | viter (vs : List Value)
  | custom (errs : List Err)

/-- `format!("{:?}", v)`-style rendering used in the `OptionValidation::Some`
error payload. -/
def Value.repr : Value → String
  | .vstr s => "\"" ++ s ++ "\""
  | .vint n => toString n
  | .vbool b => toString b
  | .vopt none => "None"
  | .vopt (some v) => "Some(" ++ v.repr ++ ")"
  | .vtuple _ => "(tuple)"
  | .viter _ => "(iterable)"
  | .custom _ => "(custom)"

/-- The derived `validate_all` result of a value's own implementation
(meaningful for `custom`; other shapes delegate to nothing in this model). -/
def ownAllErrors : Value → List Err
  | .custom errs => errs
  | _ => []

/-- Parsed attribute contents, one constructor per kind
(`RodStringContent`, `RodIntegerContent`, `RodLiteralContent`,
`RodBooleanContent`, `RodOptionContent`, `RodTupleContent`, `RodSkipContent`,
`CustomContent`, `RodIterableContent`).  The string `format` constraint is
carried as the regex source text together with its compiled matcher.
Integer per-constraint custom messages mirror the `custom_errors` array
(slots: size, sign, step).  Float contents are outside this model. -/
inductive RodAttrContent where
  | string (length : Option LengthOrSize) (format : Option (String × (String → Bool)))
      (starts_with ends_with includes : Option String)
  | integer (size : Option LengthOrSize) (sign : Option NumberSign) (step : Option Int)
      (ceSize ceSign ceStep : Option String)
  | literal (value : LitValue) (customError : Option String)
  | boolean
  | option (inner : Option RodAttrContent) (customNoneError : Option String) (innerTy : String)
  | tuple (fields : List RodAttrContent)
  | skip
  | custom
  | iterable (item : RodAttrContent) (length : Option LengthOrSize)
      (customItemError customLengthError : Option String)

/-- String length check (`LengthOrSize::validate_string`, via `.len()`, i.e.
UTF-8 byte length). -/
def strLenOk (l : LengthOrSize) (s : String) : Bool :=
  l.holds (Int.ofNat s.utf8ByteSize)

/-- Iterable length check (`LengthOrSize::validate_iterable`). -/
def iterLenOk (l : LengthOrSize) (n : Nat) : Bool :=
  l.holds (Int.ofNat n)

/-- Substring containment, modelling Rust's `str::contains(&str)`. -/
def strContains (s sub : String) : Bool :=
  (List.range (s.data.length + 1)).any fun i => sub.data.isPrefixOf (s.data.drop i)

/-- `Literal` equality check (`#field_name.clone() != #value`); a literal of a
different shape than the value cannot typecheck in the generated code, and is
modelled as unequal. -/
def litEq : LitValue → Value → Bool
  | .i n, .vint m => n == m
  | .s str, .vstr s2 => str == s2
  | .b b1, .vbool b2 => b1 == b2
  | _, _ => false

mutual

/-- Collect-all semantics of the emitted validation code for one attribute
content, translated from each kind's `get_validations` (for `ce = none`) and
`get_validations_with_custom_error` (for `ce = some _`): the two generated
bodies differ exactly in which message reaches each failing check, namely the
per-constraint message if present, else the field-level one, else the
structured error.  The `ce = some _` instantiations of the `string` and
`tuple` branches are modelled from the spec (per-field messages surface each
failing constraint as `UserDefined`, recursing through tuple elements): the
corresponding methods are absent from `src` although `lib.rs`, `option.rs`
and `iterable.rs` call them.  A shape-mismatched value (which could not
typecheck in generated Rust) yields no checks. -/
def allOf (path : String) (ce : Option String) : RodAttrContent → Value → List Err
  | .string len fmt sw ew inc, v =>
      (match v with
        | .vstr s =>
            optCheck len (fun l => !strLenOk l s)
              (fun l => emitErr ce (.stringLength path s l)) ++
            optCheck fmt (fun p => !p.2 s)
              (fun p => emitErr ce (.stringFormat path s p.1)) ++
            optCheck sw (fun p => !s.startsWith p)
              (fun p => emitErr ce (.stringStartsWith path s p)) ++
            optCheck ew (fun p => !s.endsWith p)
              (fun p => emitErr ce (.stringEndsWith path s p)) ++
            optCheck inc (fun p => !strContains s p)
              (fun p => emitErr ce (.stringIncludes path s p))
        | _ => [])
  | .integer size sign step ceSize ceSign ceStep, v =>
      (match v with
        | .vint n =>
            optCheck size (fun l => !l.holds n)
              (fun l => emitErr (ceSize.orElse fun _ => ce) (.intSize path n l)) ++
            optCheck sign (fun sg => !sg.holdsInt n)
              (fun sg => emitErr (ceSign.orElse fun _ => ce) (.intSign path n sg.token)) ++
            optCheck step (fun st => !(n % st == 0))
              (fun st => emitErr (ceStep.orElse fun _ => ce) (.intStep path n st))
        | _ => [])
  | .literal lv cemsg, v =>
      failCheck (!litEq lv v)
        (emitErr (cemsg.orElse fun _ => ce) (.literalValue path v.repr lv.text))
  | .boolean, _ => []
  | .skip, _ => []
  | .custom, v =>
      (match ce with
        | none => (ownAllErrors v).reverse
        | some m => if (ownAllErrors v).isEmpty then [] else [.userDefined m])
  | .option inner cne innerTy, v =>
      (match inner, v with
        | none, .vopt (some w) =>
            [emitErr (cne.orElse fun _ => ce) (.optionSome path (Value.repr w))]
        | none, _ => []
        | some innerC, .vopt (some w) => allOf "opt" ce innerC w
        | some _, .vopt none =>
            [emitErr (cne.orElse fun _ => ce) (.optionNone path innerTy)]
        | some _, _ => [])
  | .tuple fields, v =>
      (match v with
        | .vtuple vs => allOfTuple path ce fields vs 0
        | _ => [])
  | .iterable item len cie cle, v =>
      (match v with
        | .viter vs =>
            optCheck len (fun l => !iterLenOk l vs.length)
              (fun l => emitErr (cle.orElse fun _ => ce) (.iterLength path vs.length l)) ++
            allOfItems (cie.orElse fun _ => ce) item vs
        | _ => [])

/-- Tuple recursion of `RodTupleContent::get_validations`: one check block per
positional element, named `{field}_{i}`. -/
def allOfTuple (path : String) (ce : Option String) :
    List RodAttrContent → List Value → Nat → List Err
  | [], _, _ => []
  | _ :: _, [], _ => []
  | c :: cs, v :: vs, i =>
      allOf (path ++ "_" ++ toString i) ce c v ++ allOfTuple path ce cs vs (i + 1)

/-- Item loop of `RodIterableContent::get_validations`
(`for item in field.into_iter() { ... }`), with the item-level message
(`custom_item_error`, else the field one) already resolved into `ce`. -/
def allOfItems (ce : Option String) (item : RodAttrContent) : List Value → List Err
  | [] => []
  | v :: vs => allOf "item" ce item v ++ allOfItems ce item vs

end

mutual

/-- Fail-fast semantics of the same emitted validation code: identical checks
in identical order, but wrapped with the `return Err(e)` continuation, so the
result is the first error hit (if any).  For a `custom` content the generated
code calls the value's own `validate`, which (assumption of the model: nested
implementations are derived) returns its first own error. -/
def firstOf (path : String) (ce : Option String) : RodAttrContent → Value → Option Err
  | .string len fmt sw ew inc, v =>
      (match v with
        | .vstr s =>
            (optCheckF len (fun l => !strLenOk l s)
                (fun l => emitErr ce (.stringLength path s l))).orElse fun _ =>
            ((optCheckF fmt (fun p => !p.2 s)
                (fun p => emitErr ce (.stringFormat path s p.1))).orElse fun _ =>
            ((optCheckF sw (fun p => !s.startsWith p)
                (fun p => emitErr ce (.stringStartsWith path s p))).orElse fun _ =>
            ((optCheckF ew (fun p => !s.endsWith p)
                (fun p => emitErr ce (.stringEndsWith path s p))).orElse fun _ =>
            optCheckF inc (fun p => !strContains s p)
                (fun p => emitErr ce (.stringIncludes path s p)))))
        | _ => none)
  | .integer size sign step ceSize ceSign ceStep, v =>
      (match v with
        | .vint n =>
            (optCheckF size (fun l => !l.holds n)
                (fun l => emitErr (ceSize.orElse fun _ => ce) (.intSize path n l))).orElse fun _ =>
            ((optCheckF sign (fun sg => !sg.holdsInt n)
                (fun sg =>
                  emitErr (ceSign.orElse fun _ => ce) (.intSign path n sg.token))).orElse fun _ =>
            optCheckF step (fun st => !(n % st == 0))
                (fun st => emitErr (ceStep.orElse fun _ => ce) (.intStep path n st)))
        | _ => none)
  | .literal lv cemsg, v =>
      failCheckF (!litEq lv v)
        (emitErr (cemsg.orElse fun _ => ce) (.literalValue path v.repr lv.text))
  | .boolean, _ => none
  | .skip, _ => none
  | .custom, v =>
      (match ce with
        | none => (ownAllErrors v).head?
        | some m => if (ownAllErrors v).isEmpty then none else some (.userDefined m))
  | .option inner cne innerTy, v =>
      (match inner, v with
        | none, .vopt (some w) =>
            some (emitErr (cne.orElse fun _ => ce) (.optionSome path (Value.repr w)))
        | none, _ => none
        | some innerC, .vopt (some w) => firstOf "opt" ce innerC w
        | some _, .vopt none =>
            some (emitErr (cne.orElse fun _ => ce) (.optionNone path innerTy))
        | some _, _ => none)
  | .tuple fields, v =>
      (match v with
        | .vtuple vs => firstOfTuple path ce fields vs 0
        | _ => none)
  | .iterable item len cie cle, v =>
      (match v with
        | .viter vs =>
            (optCheckF len (fun l => !iterLenOk l vs.length)
                (fun l =>
                  emitErr (cle.orElse fun _ => ce) (.iterLength path vs.length l))).orElse fun _ =>
            firstOfItems (cie.orElse fun _ => ce) item vs
        | _ => none)

/-- Fail-fast tuple recursion. -/
def firstOfTuple (path : String) (ce : Option String) :
    List RodAttrContent → List Value → Nat → Option Err
  | [], _, _ => none
  | _ :: _, [], _ => none
  | c :: cs, v :: vs, i =>
      (firstOf (path ++ "_" ++ toString i) ce c v).orElse fun _ =>
        firstOfTuple path ce cs vs (i + 1)

/-- Fail-fast item loop. -/
def firstOfItems (ce : Option String) (item : RodAttrContent) : List Value → Option Err
  | [] => none
  | v :: vs => (firstOf "item" ce item v).orElse fun _ => firstOfItems ce item vs

end

/-- The `#[rod(...)]` payload attached to one field: the type attribute's
content plus the optional `check = |x| ...` closure and the optional
`message: "..."` clause. -/
structure FieldAttr where
  content : RodAttrContent
  check : Option (Value → Bool)
  message : Option String

/-- One named struct field as the derive driver sees it: a field either
carries a parsed attribute or delegates to its type's own (derived)
`RodValidate` implementation. -/
structure RodField where
  name : String
  attr : Option FieldAttr
  value : Value

/-- Collect-all errors contributed by one field, following
`derive_rod_validate`: the `check` clause is emitted before the type
validations; an attribute-less field iterates the nested `validate_all` error
list through the list's by-value `Iterator` (which pops from the end, hence
the reversal). -/
def fieldAllErrors (f : RodField) : List Err :=
  match f.attr with
  | none => (ownAllErrors f.value).reverse
  | some a =>
      (match a.check with
        | some p => failCheck (!p f.value) (emitErr a.message (.checkFailed f.name))
        | none => []) ++
      allOf f.name a.message a.content f.value

/-- Fail-fast error contributed by one field: same checks, `return Err`
continuation; an attribute-less field calls the nested derived `validate`,
which returns the nested implementation's first error. -/
def fieldFirstError (f : RodField) : Option Err :=
  match f.attr with
  | none => (ownAllErrors f.value).head?
  | some a =>
      (match a.check with
        | some p => failCheckF (!p f.value) (emitErr a.message (.checkFailed f.name))
        | none => none).orElse fun _ =>
      firstOf f.name a.message a.content f.value

/-- Generated `validate_all` body: push every failing check of every field in
declaration order, then `Ok` iff the list stayed empty. -/
def validateAllList (fields : List RodField) : List Err :=
  match fields with
  | [] => []
  | f :: fs => fieldAllErrors f ++ validateAllList fs

/-- Generated `validate_all` entry point. -/
def validate_all (fields : List RodField) : Except (List Err) Unit :=
  let errors := validateAllList fields
  if errors.isEmpty then .ok () else .error errors

/-- Generated `validate` body: first failing check of the first failing field. -/
def validateFirst (fields : List RodField) : Option Err :=
  match fields with
  | [] => none
  | f :: fs => (fieldFirstError f).orElse fun _ => validateFirst fs

/-- Generated `validate` (fail-fast) entry point. -/
def validate (fields : List RodField) : Except Err Unit :=
  match validateFirst fields with
  | some e => .error e
  | none => .ok ()

/-- One potentially-failing constraint in a specification-side trace:
the failure flag paired with the error that failure surfaces. -/
def traceOf {α : Type} (o : Option α) (fails : α → Bool) (e : α → Err) :
    List (Bool × Err) :=
  match o with
  | some x => [(fails x, e x)]
  | none => []

mutual

/-- `true` iff an attribute content contains no `Custom` leaf (whose
delegation errors have no spec-given internal order). -/
def noCustom : RodAttrContent → Bool
  | .custom => false
  | .option (some inner) _ _ => noCustom inner
  | .tuple fields => noCustomList fields
  | .iterable item _ _ _ => noCustom item
  | _ => true

def noCustomList : List RodAttrContent → Bool
  | [] => true
  | c :: cs => noCustom c && noCustomList cs

end

mutual

/-- Specification-side constraint enumeration, written from the spec's
ordering sentence: within a single field the constraints are listed in the
fixed per-kind declaration order (length/size first, then sign, step/type,
format, starts_with, ends_with, includes), across tuple elements positional
order, across iterable items iteration order with the iterable length check
first; each constraint surfaces its own message, else the inherited
field-level message, else the structured error (message specificity:
per-constraint > per-field > generated default).  `msg` is the inherited
field-level message. -/
def specConstraintTrace (path : String) (msg : Option String) :
    RodAttrContent → Value → List (Bool × Err)
  | .string len fmt sw ew inc, v =>
      (match v with
        | .vstr s =>
            traceOf len (fun l => !strLenOk l s)
              (fun l => emitErr msg (.stringLength path s l)) ++
            traceOf fmt (fun p => !p.2 s)
              (fun p => emitErr msg (.stringFormat path s p.1)) ++
            traceOf sw (fun p => !s.startsWith p)
              (fun p => emitErr msg (.stringStartsWith path s p)) ++
            traceOf ew (fun p => !s.endsWith p)
              (fun p => emitErr msg (.stringEndsWith path s p)) ++
            traceOf inc (fun p => !strContains s p)
              (fun p => emitErr msg (.stringIncludes path s p))
        | _ => [])
  | .integer size sign step ceSize ceSign ceStep, v =>
      (match v with
        | .vint n =>
            traceOf size (fun l => !l.holds n)
              (fun l => emitErr (ceSize.orElse fun _ => msg) (.intSize path n l)) ++
            traceOf sign (fun sg => !sg.holdsInt n)
              (fun sg => emitErr (ceSign.orElse fun _ => msg) (.intSign path n sg.token)) ++
            traceOf step (fun st => !(n % st == 0))
              (fun st => emitErr (ceStep.orElse fun _ => msg) (.intStep path n st))
        | _ => [])
  | .literal lv cemsg, v =>
      [(!litEq lv v, emitErr (cemsg.orElse fun _ => msg) (.literalValue path v.repr lv.text))]
  | .boolean, _ => []
  | .skip, _ => []
  | .custom, v => (ownAllErrors v).map fun e => (true, e)
  | .option inner cne innerTy, v =>
      (match inner, v with
        | none, .vopt (some w) =>
            [(true, emitErr (cne.orElse fun _ => msg) (.optionSome path (Value.repr w)))]
        | none, _ => []
        | some innerC, .vopt (some w) => specConstraintTrace "opt" msg innerC w
        | some _, .vopt none =>
            [(true, emitErr (cne.orElse fun _ => msg) (.optionNone path innerTy))]
        | some _, _ => [])
  | .tuple fields, v =>
      (match v with
        | .vtuple vs => specTraceTuple path msg fields vs 0
        | _ => [])
  | .iterable item len cie cle, v =>
      (match v with
        | .viter vs =>
            traceOf len (fun l => !iterLenOk l vs.length)
              (fun l => emitErr (cle.orElse fun _ => msg) (.iterLength path vs.length l)) ++
            specTraceItems (cie.orElse fun _ => msg) item vs
        | _ => [])

/-- Positional trace across tuple elements. -/
def specTraceTuple (path : String) (msg : Option String) :
    List RodAttrContent → List Value → Nat → List (Bool × Err)
  | [], _, _ => []
  | _ :: _, [], _ => []
  | c :: cs, v :: vs, i =>
      specConstraintTrace (path ++ "_" ++ toString i) msg c v ++
      specTraceTuple path msg cs vs (i + 1)

/-- Iteration-order trace across iterable items. -/
def specTraceItems (msg : Option String) (item : RodAttrContent) :
    List Value → List (Bool × Err)
  | [] => []
  | v :: vs => specConstraintTrace "item" msg item v ++ specTraceItems msg item vs

end

/-- The failures of a trace, in trace order. -/
def failuresOf (tr : List (Bool × Err)) : List Err :=
  (tr.filter fun b => b.1).map fun b => b.2

/-- Specification-side ordered failure list for one field. -/
def specFailures (path : String) (msg : Option String) (c : RodAttrContent) (v : Value) :
    List Err :=
  failuresOf (specConstraintTrace path msg c v)

/-- A struct whose fields carry plain kind attributes (no `check`, no
field-level `message`), given as (field name, attribute content, value)
triples in declaration order. -/
def structOf (triples : List (String × RodAttrContent × Value)) : List RodField :=
  triples.map fun t => ⟨t.1, some ⟨t.2.1, none, none⟩, t.2.2⟩

/-- Specification-side trace of a whole struct, fields in declaration order. -/
def specStructTrace (triples : List (String × RodAttrContent × Value)) :
    List (Bool × Err) :=
  match triples with
  | [] => []
  | t :: ts => specConstraintTrace t.1 none t.2.1 t.2.2 ++ specStructTrace ts

/-- Specification-side ordered failure list of a whole struct. -/
def specStructFailures (triples : List (String × RodAttrContent × Value)) : List Err :=
  failuresOf (specStructTrace triples)

/-- The number of independently failing constraints of a struct instance. -/
def structFailCount (triples : List (String × RodAttrContent × Value)) : Nat :=
  (specStructTrace triples).countP fun b => b.1

/-- The parsed content of `i32 { size: 6..8, sign: Positive, step: 2 }`
(`test_integer` in `src/src/tests.rs`). -/
def intContent628 : RodAttrContent :=
  .integer (some (.range (some 6) (some 8) false)) (some .positive) (some 2)
    none none none

/-- The parsed content of `String { length: 5 }`. -/
def strContentLen5 : RodAttrContent := .string (some (.exact 5)) none none none none

/-- The instance of `test_validate_all` (`src/src/tests.rs`): field1 = 5 fails
size and step, field2 = "123456" fails length. -/
def c1Triples : List (String × RodAttrContent × Value) :=
  [("field1", intContent628, .vint 5), ("field2", strContentLen5, .vstr "123456")]

/-! ### The compile-time type checker of `src/rod_derive/src/lib.rs` -/

/-- `TypeEnum`: the originating token of a classified type; a real tuple
type's `TypeTuple` token is abstracted by its arity. -/
inductive TypeEnum where
  | type (ident : String)
  | tupleTok (arity : Nat)
  deriving DecidableEq, Repr

/-- `Display for TypeEnum`. -/
def TypeEnum.display : TypeEnum → String
  | .type ident => ident
  | .tupleTok _ => "Tuple"

/-- `RodAttrType` (generated by `impl_rod_types!`): one kind variant per
supported family, each carrying the originating token. -/
inductive RodAttrType where
  | stringK (tok : TypeEnum)
  | integerK (tok : TypeEnum)
  | literalK (tok : TypeEnum)
  | booleanK (tok : TypeEnum)
  | optionK (tok : TypeEnum)
  | floatK (tok : TypeEnum)
  | tupleK (tok : TypeEnum)
  | skipK (tok : TypeEnum)
  | customK (tok : TypeEnum)
  | iterableK (tok : TypeEnum)
  deriving DecidableEq, Repr

/-- `impl PartialEq for RodAttrType`: `Skip` on either side compares equal to
anything; otherwise the same variant compares its carried tokens. -/
def eqRodAttrType : RodAttrType → RodAttrType → Bool
  | .skipK _, _ => true
  | _, .skipK _ => true
  | .stringK t1, .stringK t2 => t1 == t2
  | .integerK t1, .integerK t2 => t1 == t2
  | .literalK t1, .literalK t2 => t1 == t2
  | .booleanK t1, .booleanK t2 => t1 == t2
  | .optionK t1, .optionK t2 => t1 == t2
  | .floatK t1, .floatK t2 => t1 == t2
  | .tupleK t1, .tupleK t2 => t1 == t2
  | .customK t1, .customK t2 => t1 == t2
  | .iterableK t1, .iterableK t2 => t1 == t2
  | _, _ => false

/-- `RodAttrType::inner_type`. -/
def RodAttrType.inner_type : RodAttrType → TypeEnum
  | .stringK t => t
  | .integerK t => t
  | .literalK t => t
  | .booleanK t => t
  | .optionK t => t
  | .floatK t => t
  | .tupleK t => t
  | .skipK t => t
  | .customK t => t
  | .iterableK t => t

def RodAttrType.isSkip : RodAttrType → Bool
  | .skipK _ => true
  | _ => false

def RodAttrType.isLiteral : RodAttrType → Bool
  | .literalK _ => true
  | _ => false

/-- Discriminant of the kind variant, for stating kind-equality. -/
def RodAttrType.kindTag : RodAttrType → Nat
  | .stringK _ => 0
  | .integerK _ => 1
  | .literalK _ => 2
  | .booleanK _ => 3
  | .optionK _ => 4
  | .floatK _ => 5
  | .tupleK _ => 6
  | .skipK _ => 7
  | .customK _ => 8
  | .iterableK _ => 9

/-- `From<Type> for RodAttrType`: match the rendered token against the fixed
per-variant name lists of the `impl_rod_types!` invocation, falling back to
`Custom`. -/
def classifyTypeEnum (te : TypeEnum) : RodAttrType :=
  let s := te.display
  if ["String", "str", "OsString", "OsStr", "PathBuf", "Path", "Cow"].contains s then
    .stringK te
  else if ["i8", "i16", "i32", "i64", "i128", "isize",
      "u8", "u16", "u32", "u64", "u128", "usize"].contains s then
    .integerK te
  else if ["Literal"].contains s then .literalK te
  else if ["bool"].contains s then .booleanK te
  else if ["Option"].contains s then .optionK te
  else if ["f32", "f64"].contains s then .floatK te
  else if ["Tuple"].contains s then .tupleK te
  else if ["Skip", "skip"].contains s then .skipK te
  else if ["Iterable"].contains s then .iterableK te
  else .customK te

/-- Model of `syn::Type` as used by the macro: a path (last segment ident plus
angle-bracketed type arguments), a reference, or a tuple. -/
inductive RustType where
  | path (ident : String) (args : List RustType)
  | ref (inner : RustType)
  | tup (elems : List RustType)

/-- `get_type`: last path segment ident, unwrapping references, tuples as
`TypeEnum::Tuple`. -/
def get_type : RustType → Option TypeEnum
  | .path ident _ => some (.type ident)
  | .ref inner => get_type inner
  | .tup elems => some (.tupleTok elems.length)

/-- `From<&Type> for RodAttrType` (`none` models the `abort!` on an
unclassifiable type shape). -/
def rodAttrTypeOf (ty : RustType) : Option RodAttrType :=
  (get_type ty).map classifyTypeEnum

/-- `IsNestedReference`. -/
inductive IsNestedReference where
  | noRef | single | more
  deriving DecidableEq, Repr

/-- `type_is_nested_reference`. -/
def type_is_nested_reference : RustType → IsNestedReference
  | .ref (.ref _) => .more
  | .ref _ => .single
  | _ => .noRef

mutual

/-- The shape of a parsed `RodAttr` as seen by the nesting checker: its
resolved `RodAttrType` and its content's recursive structure. -/
inductive AttrTree where
  | mk (ty : RodAttrType) (shape : AttrShape)

inductive AttrShape where
  | optC (inner : Option AttrTree)
  | tupC (fields : List AttrTree)
  | iterC (item : AttrTree)
  | plain

end

def AttrTree.ty : AttrTree → RodAttrType
  | .mk t _ => t

/-- `recurse_rod_attr_opt`: depth of the attribute's `Option` nesting and the
leaf kind; `none` when the innermost `Option` has no inner attribute. -/
def recurse_rod_attr_opt : AttrTree → Nat → Option (RodAttrType × Nat)
  | .mk _ (.optC (some inner)), level => recurse_rod_attr_opt inner (level + 1)
  | .mk _ (.optC none), _ => none
  | a, level => some (a.ty, level)

/-- `recurse_iterable`. -/
def recurse_iterable : AttrTree → Nat → Option (RodAttrType × Nat)
  | .mk _ (.iterC item), level => recurse_iterable item (level + 1)
  | a, level => some (a.ty, level)

/-- `recurse_type_path`: follow the first angle-bracketed type argument,
classifying the innermost argument-free path. -/
def recurse_type_path : RustType → Nat → Option (RodAttrType × Nat)
  | .path ident args, level =>
      (match args with
        | arg :: _ => recurse_type_path arg (level + 1)
        | [] => some (classifyTypeEnum (.type ident), level))
  | _, _ => none

mutual

/-- `recurse_rod_attr_tuple`: flatten a tuple attribute into its leaf
`(kind, depth)` pairs. -/
def recurse_rod_attr_tuple : AttrTree → Nat → Option (List (RodAttrType × Nat))
  | .mk _ (.tupC fields), level => some (recurseRodAttrTupleFields fields level)
  | _, _ => none

def recurseRodAttrTupleFields : List AttrTree → Nat → List (RodAttrType × Nat)
  | [], _ => []
  | f :: fs, level =>
      (match recurse_rod_attr_tuple f (level + 1) with
        | some ts => ts
        | none => [(f.ty, level)]) ++
      recurseRodAttrTupleFields fs level

end

mutual

/-- `recurse_tuple`: flatten a real tuple type into its leaf `(kind, depth)`
pairs (`none` models the `unwrap` panic on an unresolvable path element). -/
def recurse_tuple : RustType → Nat → Option (List (RodAttrType × Nat))
  | .tup elems, level => recurseTupleElems elems level
  | _, _ => none

def recurseTupleElems : List RustType → Nat → Option (List (RodAttrType × Nat))
  | [], _ => some []
  | e :: es, level =>
      match e with
      | .tup _ =>
          (match recurse_tuple e (level + 1) with
            | some ts => (recurseTupleElems es level).map (ts ++ ·)
            | none => recurseTupleElems es level)
      | .path _ _ =>
          (match recurse_type_path e 0 with
            | some (t, _) => (recurseTupleElems es level).map ((t, level) :: ·)
            | none => none)
      | .ref inner =>
          (match recurse_type_path inner 0 with
            | some (t, _) => (recurseTupleElems es level).map ((t, level) :: ·)
            | none => recurseTupleElems es level)

end

/-- `(RodAttrType, usize)` equality through the custom `PartialEq`. -/
def pairEqK (a b : RodAttrType × Nat) : Bool :=
  eqRodAttrType a.1 b.1 && a.2 == b.2

def optPairEqK : Option (RodAttrType × Nat) → Option (RodAttrType × Nat) → Bool
  | none, none => true
  | some a, some b => pairEqK a b
  | _, _ => false

def listPairEqK : List (RodAttrType × Nat) → List (RodAttrType × Nat) → Bool
  | [], [] => true
  | a :: as1, b :: bs => pairEqK a b && listPairEqK as1 bs
  | _, _ => false

def optListPairEqK :
    Option (List (RodAttrType × Nat)) → Option (List (RodAttrType × Nat)) → Bool
  | none, none => true
  | some a, some b => listPairEqK a b
  | _, _ => false

/-- `diff_tuple_array`: first differing pair; `none` models the out-of-bounds
indexing panic when one flattened array is a prefix of the other. -/
def diff_tuple_array : List (RodAttrType × Nat) → List (RodAttrType × Nat) →
    Option ((RodAttrType × Nat) × (RodAttrType × Nat))
  | e :: es, a :: bs => if !pairEqK e a then some (e, a) else diff_tuple_array es bs
  | _, _ => none

/-- Macro-expansion diagnostics (`abort!`/panic outcomes). -/
inductive Diag where
  | nestedMismatch (kindName : String) (expectedDepth actualDepth : Nat)
  | kindMismatch (expected actual : RodAttrType)
  | tupleMismatch (expected actual : RodAttrType × Nat)
  | doubleRef (field : String)
  | unsupportedType
  | panicOOB
  deriving DecidableEq, Repr

/-- `assert_type!`: cross-validate the declared attribute kind (with its
Option/Iterable/Tuple nesting) against the field's real type; `Skip` skips,
`Literal` is compatible with anything classified. -/
def assert_type (a : AttrTree) (ty : RustType) : Except Diag Unit :=
  match a.ty with
  | .iterableK _ =>
      let itemType := recurse_iterable a 0
      let itemActual := recurse_type_path ty 0
      if itemType.isSome && !optPairEqK itemType itemActual then
        match itemType, itemActual with
        | some (ik, l), some (ak, al) =>
            if l ≠ al then .error (.nestedMismatch "Iterable" l al)
            else .error (.kindMismatch ik ak)
        | _, _ => .ok ()
      else .ok ()
  | .optionK _ =>
      let innerType := recurse_rod_attr_opt a 0
      let innerActual := recurse_type_path ty 0
      if innerType.isSome && !optPairEqK innerType innerActual then
        match innerType, innerActual with
        | some (ik, l), some (ak, al) =>
            if l ≠ al then .error (.nestedMismatch "Option" l al)
            else .error (.kindMismatch ik ak)
        | _, _ => .ok ()
      else .ok ()
  | .tupleK _ =>
      let innerArr := recurse_rod_attr_tuple a 0
      let innerActualArr := recurse_tuple ty 0
      if !optListPairEqK innerArr innerActualArr then
        match innerArr, innerActualArr with
        | some xs, some ys =>
            (match diff_tuple_array xs ys with
              | some (i, j) => .error (.tupleMismatch i j)
              | none => .error .panicOOB)
        | _, _ => .error .panicOOB
      else .ok ()
  | .skipK _ => .ok ()
  | _ =>
      match rodAttrTypeOf ty with
      | none => .error .unsupportedType
      | some actual =>
          if !eqRodAttrType actual a.ty && !a.ty.isLiteral then
            .error (.kindMismatch a.ty actual)
          else .ok ()

/-! ### The derive driver's per-field expansion (`derive_rod_validate`) -/

/-- One declared field: its name, real type, and attribute list (`none`
entries stand for non-`rod` attributes, `some` for parsed `#[rod(...)]`
attributes). -/
structure FieldDecl where
  name : String
  ty : RustType
  attrs : List (Option AttrTree)

/-- `get_field_validations`'s type assertions: every `rod` attribute is
checked with `assert_type!` (aborting on the first failure). -/
def assertRodAttrs : List (Option AttrTree) → RustType → Except Diag Unit
  | [], _ => .ok ()
  | none :: rest, ty => assertRodAttrs rest ty
  | some attr :: rest, ty => do
      assert_type attr ty
      assertRodAttrs rest ty

/-- Struct-field expansion: a field with no attributes at all delegates (only
an advisory may be emitted); a field with attributes runs the type assertions
and then rejects a reference-to-reference type. -/
def expandStructField (f : FieldDecl) : Except Diag Unit :=
  if f.attrs.isEmpty then .ok ()
  else do
    assertRodAttrs f.attrs f.ty
    match type_is_nested_reference f.ty with
    | .more => .error (.doubleRef f.name)
    | _ => .ok ()

/-- Enum-variant-field expansion (named and unnamed fields share this logic):
a reference-to-reference type is rejected before anything else, attribute or
not. -/
def expandEnumField (f : FieldDecl) : Except Diag Unit :=
  if type_is_nested_reference f.ty == .more then .error (.doubleRef f.name)
  else if f.attrs.isEmpty then .ok ()
  else assertRodAttrs f.attrs f.ty

/-- The attribute `Option { Option { String { length: 5 } } }` as the nesting
checker sees it (the "Wrongly nested Options" doctest of `src/src/prelude.rs`). -/
def aOptEx : AttrTree :=
  .mk (.optionK (.type "Option")) (.optC (some (.mk (.optionK (.type "Option"))
    (.optC (some (.mk (.stringK (.type "String")) .plain))))))

/-- The real type `Option<String>`. -/
def tyOptEx : RustType := .path "Option" [.path "String" []]

/-- The attribute `Tuple (i32 {...}, Tuple (i32 {...}, i32 {...}))` (the
"Wrongly nested Tuples" doctest, against a flatter real type). -/
def aTupEx : AttrTree :=
  .mk (.tupleK (.type "Tuple")) (.tupC [
    .mk (.integerK (.type "i32")) .plain,
    .mk (.tupleK (.type "Tuple")) (.tupC [
      .mk (.integerK (.type "i32")) .plain,
      .mk (.integerK (.type "i32")) .plain])])

/-- The real type `(i32, i32)`. -/
def tyTupEx : RustType := .tup [.path "i32" [], .path "i32" []]

/-! ### Attribute-body token parsing (`impl Parse for Rod*Content`) -/

/-- Tokens of an attribute body, as the per-kind parsers consume them. -/
inductive AttrTok where
  | key (s : String)
  | colon
  | comma
  | qmark
  | lit (s : String)
  | los (v : LengthOrSize)
  | signV (s : NumberSign)
  | intV (n : Int)
  deriving DecidableEq, Repr

/-- `_ = inner.parse::<Token![,]>()`: consume one comma if present. -/
def dropComma (toks : List AttrTok) : List AttrTok :=
  if toks.head? == some .comma then toks.tail else toks

/-- Parsed `RodIntegerContent` (fields plus the `custom_errors` array slots
size/sign/step). -/
structure IntegerParsed where
  size : Option LengthOrSize
  sign : Option NumberSign
  step : Option Int
  ceSize : Option String
  ceSign : Option String
  ceStep : Option String
  deriving DecidableEq, Repr

/-- The empty `RodIntegerContent`. -/
def IntegerParsed.empty : IntegerParsed := ⟨none, none, none, none, none, none⟩

/-- The body loop of `impl Parse for RodIntegerContent`: identifiers pick a
key (`size`/`range`, `sign`, `step`), a pending `?"msg"` marker is moved into
that key's `custom_errors` slot, and a `?` token followed by a string literal
records the pending marker.  Anything else is a parse abort. -/
def parseIntegerLoop (toks : List AttrTok) (st : IntegerParsed) (msg : Option String) :
    Except String IntegerParsed :=
  match toks with
  | [] => .ok st
  | .key id :: rest =>
      if id == "size" || id == "range" then
        match rest with
        | .colon :: .los v :: r2 =>
            parseIntegerLoop (dropComma r2)
              { st with size := some v,
                        ceSize := if msg.isSome then msg else st.ceSize } none
        | _ => .error "Expected a number or a range"
      else if id == "sign" then
        match rest with
        | .colon :: .signV sg :: r2 =>
            parseIntegerLoop (dropComma r2)
              { st with sign := some sg,
                        ceSign := if msg.isSome then msg else st.ceSign } none
        | _ => .error "Expected a valid sign"
      else if id == "step" then
        match rest with
        | .colon :: .intV n :: r2 =>
            parseIntegerLoop (dropComma r2)
              { st with step := some n,
                        ceStep := if msg.isSome then msg else st.ceStep } none
        | _ => .error "Expected an integer"
      else .error ("Unknown attribute " ++ id)
  | .qmark :: .lit m :: rest => parseIntegerLoop rest st (some m)
  | .qmark :: _ => .error "Expected a string literal"
  | _ => .error "Expected an identifier or a custom error message"
termination_by toks.length
decreasing_by
  all_goals try simp only [dropComma]
  all_goals try split
  all_goals try simp [List.length_tail, List.length_cons]
  all_goals try omega

/-- Parsed `RodStringContent` (no per-constraint custom message slots exist
for strings in the source). -/
structure StringParsed where
  length : Option LengthOrSize
  format : Option String
  starts_with : Option String
  ends_with : Option String
  includes : Option String
  deriving DecidableEq, Repr

/-- The empty `RodStringContent`. -/
def StringParsed.empty : StringParsed := ⟨none, none, none, none, none⟩

/-- The body loop of `impl Parse for RodStringContent`: only identifiers are
accepted at the head of an entry; any other token — including the `?` custom
error message marker — aborts with "Expected an identifier". -/
def parseStringLoop (toks : List AttrTok) (st : StringParsed) :
    Except String StringParsed :=
  match toks with
  | [] => .ok st
  | .key id :: rest =>
      if id == "length" then
        match rest with
        | .colon :: .los v :: r2 => parseStringLoop (dropComma r2) { st with length := some v }
        | _ => .error "Expected a number or a range"
      else if id == "format" then
        match rest with
        | .colon :: .lit s :: r2 => parseStringLoop (dropComma r2) { st with format := some s }
        | .colon :: .key s :: r2 => parseStringLoop (dropComma r2) { st with format := some s }
        | _ => .error "Expected identifier or string literal for attribute format"
      else if id == "includes" then
        match rest with
        | .colon :: .lit s :: r2 =>
            parseStringLoop (dropComma r2) { st with includes := some s }
        | _ => .error "Expected a string literal"
      else if id == "starts_with" then
        match rest with
        | .colon :: .lit s :: r2 =>
            parseStringLoop (dropComma r2) { st with starts_with := some s }
        | _ => .error "Expected a string literal"
      else if id == "ends_with" then
        match rest with
        | .colon :: .lit s :: r2 =>
            parseStringLoop (dropComma r2) { st with ends_with := some s }
        | _ => .error "Expected a string literal"
      else .error ("Unknown attribute " ++ id)
  | _ => .error "Expected an identifier"
termination_by toks.length
decreasing_by
  all_goals try simp only [dropComma]
  all_goals try split
  all_goals try simp [List.length_tail, List.length_cons]
  all_goals try omega

/-! ### The runtime error list (`src/src/errors/mod.rs`) -/

/-- `RodValidateErrorList`, a newtype over a vector of errors. -/
structure RodValidateErrorList where
  errors : List Err
  deriving DecidableEq, Repr

/-- `RodValidateErrorList::new`. -/
def RodValidateErrorList.new : RodValidateErrorList := ⟨[]⟩

/-- `RodValidateErrorList::push` (vector push: append at the end). -/
def RodValidateErrorList.push (l : RodValidateErrorList) (e : Err) : RodValidateErrorList :=
  ⟨l.errors ++ [e]⟩

/-- `RodValidateErrorList::iter` (front-to-back slice iteration). -/
def RodValidateErrorList.iterList (l : RodValidateErrorList) : List Err :=
  l.errors

/-- `Index<usize> for RodValidateErrorList` (out-of-bounds modelled as
`none`). -/
def RodValidateErrorList.getAt (l : RodValidateErrorList) (i : Nat) : Option Err :=
  l.errors.get? i

/-- `Iterator::next for RodValidateErrorList`: `self.0.pop()`, i.e. remove and
return the LAST element. -/
def RodValidateErrorList.next (l : RodValidateErrorList) :
    Option (Err × RodValidateErrorList) :=
  match l.errors.getLast? with
  | some e => some (e, ⟨l.errors.dropLast⟩)
  | none => none

/-- Driving the by-value `Iterator` to exhaustion (what `for e in list` does). -/
def consumeIter : RodValidateErrorList → List Err
  | ⟨[]⟩ => []
  | ⟨e :: es⟩ => ((e :: es).getLast (by simp)) :: consumeIter ⟨(e :: es).dropLast⟩
termination_by l => l.errors.length
decreasing_by simp [List.length_dropLast]

set_option maxHeartbeats 1000000 in
/-- C4: on the attribute `i32 { size: 6..8, sign: Positive, step: 2 }` the
value 6 produces no validation errors; 5 fails with a size error (outside the
half-open range `6..8`) and a step error (not a multiple of 2); 7 fails with
exactly the step error (odd, though inside the range and positive). -/
theorem c4_integer_six_seven_eight :
    allOf "field" none intContent628 (.vint 6) = [] ∧
    allOf "field" none intContent628 (.vint 5) =
      [.intSize "field" 5 (.range (some 6) (some 8) false), .intStep "field" 5 2] ∧
    allOf "field" none intContent628 (.vint 7) = [.intStep "field" 7 2] := by
  refine ⟨?_, ?_, ?_⟩ <;>
  · simp only [intContent628, allOf]
    simp [optCheck, LengthOrSize.holds, NumberSign.holdsInt,
      NumberSign.token, failCheck, emitErr]

/-- C2: `Option {}` (no inner attribute) accepts exactly `None` — any
`Some(_)` yields precisely the `OptionValidation::Some` error — and
`Option { T }` accepts `Some(v)` iff `v` passes `T`'s validations, while
`None` always fails. -/
theorem c2_option_accepts :
    (∀ (path ty : String) (o : Option Value),
      allOf path none (.option none none ty) (.vopt o) = [] ↔ o = none) ∧
    (∀ (path ty : String) (v : Value),
      allOf path none (.option none none ty) (.vopt (some v)) =
        [.optionSome path v.repr]) ∧
    (∀ (path ty : String) (inner : RodAttrContent) (cne : Option String) (v : Value),
      allOf path none (.option (some inner) cne ty) (.vopt (some v)) = [] ↔
        allOf "opt" none inner v = []) ∧
    (∀ (path ty : String) (inner : RodAttrContent) (cne : Option String),
      allOf path none (.option (some inner) cne ty) (.vopt none) ≠ []) := by
  refine ⟨?_, ?_, ?_, ?_⟩
  · intro path ty o
    cases o
    all_goals simp only [allOf]
    all_goals simp [emitErr]
  · intro path ty v
    simp only [allOf]; simp [emitErr]
  · intro path ty inner cne v
    simp only [allOf]
  · intro path ty inner cne
    cases cne
    all_goals simp only [allOf]
    all_goals simp [emitErr]

set_option maxHeartbeats 2000000

theorem failCheck_eq_nil_iff (b : Bool) (e : Err) : failCheck b e = [] ↔ b = false := by
  cases b <;> simp [failCheck]

theorem failCheckF_eq_none_iff (b : Bool) (e : Err) : failCheckF b e = none ↔ b = false := by
  cases b <;> simp [failCheckF]

theorem optCheck_eq_nil_iff {α : Type} (o : Option α) (f : α → Bool) (e : α → Err) :
    optCheck o f e = [] ↔ ∀ x ∈ o, f x = false := by
  cases o <;> simp [optCheck, failCheck_eq_nil_iff]

theorem optCheckF_eq_none_iff {α : Type} (o : Option α) (f : α → Bool) (e : α → Err) :
    optCheckF o f e = none ↔ ∀ x ∈ o, f x = false := by
  cases o <;> simp [optCheckF, failCheckF_eq_none_iff]

theorem orElse_eq_none_iff (a : Option Err) (f : Unit → Option Err) :
    a.orElse f = none ↔ a = none ∧ f () = none := by
  cases a <;> simp [Option.orElse]

mutual

/-- The two failure continuations agree on acceptance: the fail-fast
translation finds no error exactly when the collect-all translation collects
none. -/
theorem firstOf_eq_none_iff (path : String) (ce : Option String)
    (c : RodAttrContent) (v : Value) :
    firstOf path ce c v = none ↔ allOf path ce c v = [] := by
  cases c with
  | string len fmt sw ew inc =>
      cases v
      all_goals simp only [firstOf, allOf]
      all_goals simp [orElse_eq_none_iff, optCheck_eq_nil_iff, optCheckF_eq_none_iff,
        List.append_eq_nil, and_assoc]
  | integer size sign step c1 c2 c3 =>
      cases v
      all_goals simp only [firstOf, allOf]
      all_goals simp [orElse_eq_none_iff, optCheck_eq_nil_iff, optCheckF_eq_none_iff,
        List.append_eq_nil, and_assoc]
  | literal lv cemsg =>
      simp only [firstOf, allOf]
      simp [failCheck_eq_nil_iff, failCheckF_eq_none_iff]
  | boolean => simp only [firstOf, allOf]
  | skip => simp only [firstOf, allOf]
  | custom =>
      cases ce with
      | none =>
          simp only [firstOf, allOf]
          simp [List.head?_eq_none_iff, List.reverse_eq_nil_iff]
      | some m =>
          simp only [firstOf, allOf]
          cases h : (ownAllErrors v).isEmpty <;> simp [h]
  | option inner cne innerTy =>
      cases v
      case vopt o =>
        cases inner with
        | none =>
            cases o
            all_goals simp [firstOf, allOf]
        | some innerC =>
            cases o with
            | none => simp [firstOf, allOf]
            | some w =>
                simp only [firstOf, allOf]
                exact firstOf_eq_none_iff "opt" ce innerC w
      all_goals cases inner
      all_goals simp [firstOf, allOf]
  | tuple fields =>
      cases v
      all_goals simp only [firstOf, allOf]
      case vtuple vs => exact firstOfTuple_eq_none_iff path ce fields vs 0
  | iterable item len cie cle =>
      cases v
      all_goals simp only [firstOf, allOf]
      case viter vs =>
        rw [orElse_eq_none_iff, List.append_eq_nil,
          firstOfItems_eq_none_iff ((cie.orElse fun _ => ce)) item vs]
        simp [optCheck_eq_nil_iff, optCheckF_eq_none_iff]
termination_by (sizeOf c, 0)

/-- Tuple loop version of `firstOf_eq_none_iff`. -/
theorem firstOfTuple_eq_none_iff (path : String) (ce : Option String)
    (cs : List RodAttrContent) (vs : List Value) (i : Nat) :
    firstOfTuple path ce cs vs i = none ↔ allOfTuple path ce cs vs i = [] := by
  cases cs with
  | nil => simp only [firstOfTuple, allOfTuple]
  | cons c cs =>
      cases vs with
      | nil => simp only [firstOfTuple, allOfTuple]
      | cons v vs =>
          simp only [firstOfTuple, allOfTuple]
          rw [orElse_eq_none_iff, List.append_eq_nil,
            firstOf_eq_none_iff (path ++ "_" ++ toString i) ce c v,
            firstOfTuple_eq_none_iff path ce cs vs (i + 1)]
termination_by (sizeOf cs, 0)

/-- Item loop version of `firstOf_eq_none_iff`. -/
theorem firstOfItems_eq_none_iff (ce : Option String) (item : RodAttrContent)
    (vs : List Value) :
    firstOfItems ce item vs = none ↔ allOfItems ce item vs = [] := by
  cases vs with
  | nil => simp only [firstOfItems, allOfItems]
  | cons v vs =>
      simp only [firstOfItems, allOfItems]
      rw [orElse_eq_none_iff, List.append_eq_nil,
        firstOf_eq_none_iff "item" ce item v,
        firstOfItems_eq_none_iff ce item vs]
termination_by (sizeOf item, vs.length + 1)

end

theorem fieldFirstError_eq_none_iff (f : RodField) :
    fieldFirstError f = none ↔ fieldAllErrors f = [] := by
  obtain ⟨name, attr, value⟩ := f
  cases attr with
  | none =>
      simp [fieldFirstError, fieldAllErrors, List.head?_eq_none_iff,
        List.reverse_eq_nil_iff]
  | some a =>
      obtain ⟨content, check, message⟩ := a
      cases check <;>
        simp [fieldFirstError, fieldAllErrors, orElse_eq_none_iff, List.append_eq_nil,
          firstOf_eq_none_iff, failCheck_eq_nil_iff, failCheckF_eq_none_iff]

theorem validateFirst_eq_none_iff (fields : List RodField) :
    validateFirst fields = none ↔ validateAllList fields = [] := by
  induction fields with
  | nil => simp [validateFirst, validateAllList]
  | cons f fs ih =>
      simp [validateFirst, validateAllList, orElse_eq_none_iff, List.append_eq_nil,
        fieldFirstError_eq_none_iff, ih]

theorem failuresOf_append (a b : List (Bool × Err)) :
    failuresOf (a ++ b) = failuresOf a ++ failuresOf b := by
  simp [failuresOf]

theorem optCheck_eq_failuresOf_traceOf {α : Type} (o : Option α) (f : α → Bool)
    (e : α → Err) : optCheck o f e = failuresOf (traceOf o f e) := by
  cases o with
  | none => rfl
  | some x => cases h : f x <;> simp [optCheck, traceOf, failuresOf, failCheck, h]

theorem failCheck_eq_failuresOf (b : Bool) (e : Err) :
    failCheck b e = failuresOf [(b, e)] := by
  cases b <;> simp [failuresOf, failCheck]

mutual

/-- The emitted collect-all validation of a Custom-free content produces
exactly the specification-side ordered failure list. -/
theorem allOf_eq_specFailures (path : String) (ce : Option String)
    (c : RodAttrContent) (v : Value) (h : noCustom c = true) :
    allOf path ce c v = specFailures path ce c v := by
  cases c with
  | string len fmt sw ew inc =>
      cases v
      all_goals simp only [allOf, specFailures, specConstraintTrace,
        failuresOf_append, optCheck_eq_failuresOf_traceOf]
      all_goals simp [failuresOf]
  | integer size sign step c1 c2 c3 =>
      cases v
      all_goals simp only [allOf, specFailures, specConstraintTrace,
        failuresOf_append, optCheck_eq_failuresOf_traceOf]
      all_goals simp [failuresOf]
  | literal lv cemsg =>
      simp only [allOf, specFailures, specConstraintTrace]
      exact failCheck_eq_failuresOf _ _
  | boolean => simp [allOf, specFailures, specConstraintTrace, failuresOf]
  | skip => simp [allOf, specFailures, specConstraintTrace, failuresOf]
  | custom => simp [noCustom] at h
  | option inner cne innerTy =>
      cases v
      case vopt o =>
        cases inner with
        | none =>
            cases o
            all_goals simp [allOf, specFailures, specConstraintTrace, failuresOf]
        | some innerC =>
            have h' : noCustom innerC = true := by
              simpa [noCustom] using h
            cases o with
            | none => simp [allOf, specFailures, specConstraintTrace, failuresOf]
            | some w =>
                simp only [allOf, specFailures, specConstraintTrace]
                exact allOf_eq_specFailures "opt" ce innerC w h'
      all_goals cases inner
      all_goals simp [allOf, specFailures, specConstraintTrace, failuresOf]
  | tuple fields =>
      have h' : noCustomList fields = true := by simpa [noCustom] using h
      cases v
      all_goals simp only [allOf, specFailures, specConstraintTrace]
      case vtuple vs => exact allOfTuple_eq_specTrace path ce fields vs 0 h'
      all_goals simp [failuresOf]
  | iterable item len cie cle =>
      have h' : noCustom item = true := by simpa [noCustom] using h
      cases v
      all_goals simp only [allOf, specFailures, specConstraintTrace,
        failuresOf_append, optCheck_eq_failuresOf_traceOf]
      case viter vs =>
        rw [allOfItems_eq_specTrace (cie.orElse fun _ => ce) item vs h']
      all_goals simp [failuresOf]
termination_by (sizeOf c, 0)

/-- Tuple loop version of `allOf_eq_specFailures`. -/
theorem allOfTuple_eq_specTrace (path : String) (ce : Option String)
    (cs : List RodAttrContent) (vs : List Value) (i : Nat)
    (h : noCustomList cs = true) :
    allOfTuple path ce cs vs i = failuresOf (specTraceTuple path ce cs vs i) := by
  cases cs with
  | nil => simp [allOfTuple, specTraceTuple, failuresOf]
  | cons c cs =>
      have hc : noCustom c = true ∧ noCustomList cs = true := by
        simpa [noCustomList, Bool.and_eq_true] using h
      cases vs with
      | nil => simp [allOfTuple, specTraceTuple, failuresOf]
      | cons v vs =>
          simp only [allOfTuple, specTraceTuple, failuresOf_append]
          rw [allOf_eq_specFailures (path ++ "_" ++ toString i) ce c v hc.1,
            allOfTuple_eq_specTrace path ce cs vs (i + 1) hc.2]
          rfl
termination_by (sizeOf cs, 0)

/-- Item loop version of `allOf_eq_specFailures`. -/
theorem allOfItems_eq_specTrace (ce : Option String) (item : RodAttrContent)
    (vs : List Value) (h : noCustom item = true) :
    allOfItems ce item vs = failuresOf (specTraceItems ce item vs) := by
  cases vs with
  | nil => simp [allOfItems, specTraceItems, failuresOf]
  | cons v vs =>
      simp only [allOfItems, specTraceItems, failuresOf_append]
      rw [allOf_eq_specFailures "item" ce item v h,
        allOfItems_eq_specTrace ce item vs h]
      rfl
termination_by (sizeOf item, vs.length + 1)

end

theorem validateAllList_structOf (triples : List (String × RodAttrContent × Value))
    (h : ∀ t ∈ triples, noCustom t.2.1 = true) :
    validateAllList (structOf triples) = specStructFailures triples := by
  induction triples with
  | nil => simp [structOf, validateAllList, specStructFailures, specStructTrace, failuresOf]
  | cons t ts ih =>
      obtain ⟨n, c, v⟩ := t
      have hc : noCustom c = true := h _ (List.mem_cons_self _ _)
      have hts : ∀ t ∈ ts, noCustom t.2.1 = true := fun t ht => h t (List.mem_cons_of_mem _ ht)
      simp only [structOf, List.map_cons, validateAllList, fieldAllErrors,
        specStructFailures, specStructTrace, failuresOf_append]
      rw [allOf_eq_specFailures n none c v hc]
      have := ih hts
      simp only [structOf, specStructFailures] at this
      rw [this]
      rfl

theorem specStructFailures_length (triples : List (String × RodAttrContent × Value)) :
    (specStructFailures triples).length = structFailCount triples := by
  simp [specStructFailures, failuresOf, structFailCount, List.countP_eq_length_filter]

/-- C1: on a struct whose fields carry plain kind attributes (Custom-free, no
`check`/`message` clause) and on which exactly `k` constraints independently
fail (`k > 0`), `validate_all` returns `Err` with the specification-side
ordered failure list — fields in declaration order, constraints within a
field in the fixed per-kind order, tuple elements positionally, iterable
items in iteration order after the iterable length check — and that list has
exactly `k` errors. -/
theorem c1_validate_all_k_ordered_errors
    (triples : List (String × RodAttrContent × Value)) (k : Nat)
    (hnc : ∀ t ∈ triples, noCustom t.2.1 = true)
    (hk : structFailCount triples = k) (hpos : 0 < k) :
    validate_all (structOf triples) = .error (specStructFailures triples) ∧
    (specStructFailures triples).length = k := by
  have heq := validateAllList_structOf triples hnc
  have hlen := specStructFailures_length triples
  have hne : specStructFailures triples ≠ [] := by
    intro h0
    rw [h0] at hlen
    simp only [List.length_nil] at hlen
    omega
  refine ⟨?_, by omega⟩
  simp [validate_all, heq, List.isEmpty_iff, hne]

theorem c1_validate_all_k_ordered_errors_witness :
    structFailCount c1Triples = 3 ∧
    validate_all (structOf c1Triples) = .error (specStructFailures c1Triples) ∧
    (specStructFailures c1Triples).length = 3 := by
  have hk : structFailCount c1Triples = 3 := by
    simp only [c1Triples, structFailCount, specStructTrace, specConstraintTrace,
      intContent628, strContentLen5, traceOf]
    simp [LengthOrSize.holds, NumberSign.holdsInt, strLenOk]
    decide
  have hnc : ∀ t ∈ c1Triples, noCustom t.2.1 = true := by
    intro t ht
    simp only [c1Triples, List.mem_cons, List.mem_singleton] at ht
    rcases ht with h | h | h
    · subst h; simp [intContent628, noCustom]
    · subst h; simp [strContentLen5, noCustom]
    · cases h
  exact ⟨hk, c1_validate_all_k_ordered_errors c1Triples 3 hnc hk (by decide)⟩

/-- C9: for every derived struct and every instance, the fail-fast entry point
and the collect-all entry point agree on acceptance: `validate` returns `Ok`
iff `validate_all` returns `Ok` (nested attribute-less/custom implementations
being derived is built into the `Value.custom` model). -/
theorem c9_validate_iff_validate_all (fields : List RodField) :
    validate fields = .ok () ↔ validate_all fields = .ok () := by
  rcases hv : validateFirst fields with _ | e
  · have hl : validateAllList fields = [] := (validateFirst_eq_none_iff fields).mp hv
    simp [validate, validate_all, hv, hl]
  · have hl : validateAllList fields ≠ [] := by
      intro h0
      have := (validateFirst_eq_none_iff fields).mpr h0
      rw [this] at hv
      cases hv
    simp [validate, validate_all, hv, hl]

/-- C6 counterexample: both `String` and `str` classify as the String kind,
yet the custom `PartialEq` compares them UNEQUAL, because a same-variant
comparison compares the carried tokens — falsifying "String-kind derived from
`String` equals String-kind derived from `str`". -/
theorem c6_counterexample_string_vs_str :
    classifyTypeEnum (.type "String") = .stringK (.type "String") ∧
    classifyTypeEnum (.type "str") = .stringK (.type "str") ∧
    eqRodAttrType (classifyTypeEnum (.type "String")) (classifyTypeEnum (.type "str")) =
      false := by
  refine ⟨rfl, rfl, rfl⟩

/-- C6 amended: `RodAttrType` equality holds exactly when one side is `Skip`
(a wildcard on either side), or both sides are the same kind variant carrying
EQUAL originating tokens. -/
theorem c6_amended_kind_and_token_equality (a b : RodAttrType) :
    eqRodAttrType a b = true ↔
      (a.isSkip = true ∨ b.isSkip = true ∨
        (a.kindTag = b.kindTag ∧ a.inner_type = b.inner_type)) := by
  cases a <;> cases b <;>
    simp [eqRodAttrType, RodAttrType.isSkip, RodAttrType.kindTag, RodAttrType.inner_type]

/-- C8 (code bug): `none` is not in the Skip match list (`Skip`/`skip` only),
so `#[rod(none)]` classifies as a Custom kind and the type assertion against
a `String` field hard-aborts with a kind mismatch — the expansion that
`test_child` (src/src/tests/basic.rs) expects to succeed with no checks. -/
theorem c8_rod_none_classified_custom_aborts :
    classifyTypeEnum (.type "none") = .customK (.type "none") ∧
    assert_type (.mk (.customK (.type "none")) .plain) (.path "String" []) =
      .error (.kindMismatch (.customK (.type "none")) (.stringK (.type "String"))) ∧
    expandStructField
        ⟨"field", .path "String" [], [some (.mk (.customK (.type "none")) .plain)]⟩ =
      .error (.kindMismatch (.customK (.type "none")) (.stringK (.type "String"))) := by
  refine ⟨rfl, rfl, rfl⟩

/-- C7 counterexample: a struct field of type `&&i32` WITHOUT any attribute
expands without a macro error (the reference-to-reference abort sits only on
the attribute-carrying struct path), falsifying "regardless of whether the
field carries a `#[rod(...)]` attribute or not". -/
theorem c7_counterexample_attrless_struct_field :
    type_is_nested_reference (.ref (.ref (.path "i32" []))) = .more ∧
    expandStructField ⟨"field", .ref (.ref (.path "i32" [])), []⟩ = .ok () := by
  exact ⟨rfl, rfl⟩

/-- C7 amended: a reference-to-reference field is rejected at build time for
struct fields that carry at least one attribute, and for enum variant fields
unconditionally; an attribute-less struct field is not rejected by the macro
(it merely delegates). -/
theorem c7_amended_double_reference_rejection (f : FieldDecl)
    (h : type_is_nested_reference f.ty = .more) :
    (f.attrs ≠ [] → ∃ d, expandStructField f = .error d) ∧
    (∃ d, expandEnumField f = .error d) := by
  constructor
  · intro hne
    have hempty : f.attrs.isEmpty = false := by
      cases hattrs : f.attrs with
      | nil => exact absurd hattrs hne
      | cons a rest => simp [hattrs]
    rcases hres : assertRodAttrs f.attrs f.ty with d | u
    · exact ⟨d, by simp [expandStructField, hempty, hres, Bind.bind, Except.bind]⟩
    · exact ⟨.doubleRef f.name,
        by simp [expandStructField, hempty, hres, Bind.bind, Except.bind, h]⟩
  · exact ⟨.doubleRef f.name, by simp [expandEnumField, h]⟩

theorem c7_amended_double_reference_rejection_witness :
    type_is_nested_reference (RustType.ref (.ref (.path "i32" []))) = .more ∧
    ([some (AttrTree.mk (.integerK (.type "i32")) .plain)] ≠
      ([] : List (Option AttrTree))) ∧
    (∃ d, expandStructField ⟨"field", .ref (.ref (.path "i32" [])),
      [some (.mk (.integerK (.type "i32")) .plain)]⟩ = .error d) ∧
    (∃ d, expandEnumField ⟨"field", .ref (.ref (.path "i32" [])),
      [some (.mk (.integerK (.type "i32")) .plain)]⟩ = .error d) := by
  have h := c7_amended_double_reference_rejection
    ⟨"field", .ref (.ref (.path "i32" [])), [some (.mk (.integerK (.type "i32")) .plain)]⟩
    rfl
  exact ⟨rfl, by simp, h.1 (by simp), h.2⟩

theorem diff_tuple_array_some_ne (xs ys : List (RodAttrType × Nat))
    (p q : RodAttrType × Nat) (h : diff_tuple_array xs ys = some (p, q)) :
    listPairEqK xs ys = false := by
  induction xs generalizing ys with
  | nil => cases ys <;> simp [diff_tuple_array] at h
  | cons x xs ih =>
      cases ys with
      | nil => simp [diff_tuple_array] at h
      | cons y ys =>
          simp only [diff_tuple_array] at h
          by_cases hpq : pairEqK x y = true
          · rw [if_neg (by simp [hpq])] at h
            simp [listPairEqK, hpq, ih ys h]
          · rw [if_pos (by simp [hpq])] at h
            simp [listPairEqK, hpq]

/-- C3: a confirmed Option nesting-depth mismatch between the attribute and
the real type makes `assert_type!` hard-abort with the expected-vs-found
depth diagnostic — so the field's expansion produces a build error, never a
runtime validation outcome — and a flattened-tuple first difference likewise
aborts with the expected-vs-found pair. -/
theorem c3_nesting_depth_mismatch_aborts (a : AttrTree) (ty : RustType) :
    (∀ tok ik ak l al, a.ty = .optionK tok →
      recurse_rod_attr_opt a 0 = some (ik, l) →
      recurse_type_path ty 0 = some (ak, al) → l ≠ al →
      assert_type a ty = .error (.nestedMismatch "Option" l al) ∧
      expandStructField ⟨"field", ty, [some a]⟩ =
        .error (.nestedMismatch "Option" l al)) ∧
    (∀ tok xs ys p q, a.ty = .tupleK tok →
      recurse_rod_attr_tuple a 0 = some xs →
      recurse_tuple ty 0 = some ys →
      diff_tuple_array xs ys = some (p, q) → p.2 ≠ q.2 →
      assert_type a ty = .error (.tupleMismatch p q)) := by
  constructor
  · intro tok ik ak l al hty hattr hpath hlal
    have hassert : assert_type a ty = .error (.nestedMismatch "Option" l al) := by
      have hbeq : (l == al) = false := by simpa using hlal
      simp [assert_type, hty, hattr, hpath, optPairEqK, pairEqK, hbeq, hlal]
    refine ⟨hassert, ?_⟩
    simp [expandStructField, assertRodAttrs, hassert, Bind.bind, Except.bind]
  · intro tok xs ys p q hty hattr hpath hdiff hpq
    have hne := diff_tuple_array_some_ne xs ys p q hdiff
    simp [assert_type, hty, hattr, hpath, optListPairEqK, hne, hdiff]

theorem c3_nesting_depth_mismatch_aborts_witness :
    (assert_type aOptEx tyOptEx = .error (.nestedMismatch "Option" 2 1) ∧
      expandStructField ⟨"field", tyOptEx, [some aOptEx]⟩ =
        .error (.nestedMismatch "Option" 2 1)) ∧
    assert_type aTupEx tyTupEx =
      .error (.tupleMismatch (.integerK (.type "i32"), 1) (.integerK (.type "i32"), 0)) := by
  constructor
  · exact (c3_nesting_depth_mismatch_aborts aOptEx tyOptEx).1
      (.type "Option") (.stringK (.type "String")) (.stringK (.type "String")) 2 1
      rfl
      (by simp [aOptEx, recurse_rod_attr_opt, AttrTree.ty])
      (by
        have hc : classifyTypeEnum (.type "String") = .stringK (.type "String") := rfl
        simp [tyOptEx, recurse_type_path, hc])
      (by decide)
  · exact (c3_nesting_depth_mismatch_aborts aTupEx tyTupEx).2
      (.type "Tuple")
      [(.integerK (.type "i32"), 0), (.integerK (.type "i32"), 1), (.integerK (.type "i32"), 1)]
      [(.integerK (.type "i32"), 0), (.integerK (.type "i32"), 0)]
      (.integerK (.type "i32"), 1) (.integerK (.type "i32"), 0)
      rfl
      (by simp [aTupEx, recurse_rod_attr_tuple, recurseRodAttrTupleFields, AttrTree.ty])
      (by
        have hc : classifyTypeEnum (.type "i32") = .integerK (.type "i32") := rfl
        simp [tyTupEx, recurse_tuple, recurseTupleElems, recurse_type_path, hc])
      (by simp [diff_tuple_array, pairEqK, eqRodAttrType])
      (by decide)

/-- C5 (code bug): the String body parser aborts on the `?"msg"`
per-constraint message marker with "Expected an identifier", while the
integer body parser accepts the same marker and stores it in the size slot —
although the crate's own `test_per_validation_custom_errors` feeds `?"len"`
to a `String { ... }` body. -/
theorem c5_string_marker_rejected_integer_accepts :
    parseStringLoop [.qmark, .lit "len", .key "length", .colon, .los (.exact 5)]
      StringParsed.empty = .error "Expected an identifier" ∧
    parseIntegerLoop [.qmark, .lit "int size", .key "size", .colon,
        .los (.range (some 6) (some 8) true)] IntegerParsed.empty none =
      .ok ⟨some (.range (some 6) (some 8) true), none, none, some "int size", none, none⟩ := by
  constructor
  · simp [parseStringLoop, StringParsed.empty]
  · simp [parseIntegerLoop, IntegerParsed.empty, dropComma]

theorem foldl_push_errors (xs acc : List Err) :
    (xs.foldl RodValidateErrorList.push ⟨acc⟩).errors = acc ++ xs := by
  induction xs generalizing acc with
  | nil => simp
  | cons e es ih =>
      simp only [List.foldl_cons, RodValidateErrorList.push]
      rw [ih (acc ++ [e])]
      simp

theorem consumeIter_eq_reverse (xs : List Err) : consumeIter ⟨xs⟩ = xs.reverse := by
  match xs with
  | [] => simp [consumeIter]
  | e :: es =>
      rw [consumeIter]
      rw [consumeIter_eq_reverse ((e :: es).dropLast)]
      conv_rhs => rw [← List.dropLast_append_getLast (l := e :: es) (by simp)]
      rw [List.reverse_append]
      simp
termination_by xs.length
decreasing_by simp [List.length_dropLast]

/-- C10: after pushing errors in order, consuming the list through its
by-value `Iterator` (`next` pops from the end of the vector) yields the
errors in REVERSE push order, whereas `iter()` and `Index` traverse in push
order — the ordered-list guarantee holds only for `iter()`/indexing. -/
theorem c10_iterator_reverses_iter_preserves (xs : List Err) :
    consumeIter (xs.foldl RodValidateErrorList.push RodValidateErrorList.new) =
      xs.reverse ∧
    (xs.foldl RodValidateErrorList.push RodValidateErrorList.new).iterList = xs ∧
    ∀ i : Nat,
      (xs.foldl RodValidateErrorList.push RodValidateErrorList.new).getAt i =
        xs.get? i := by
  have h : xs.foldl RodValidateErrorList.push RodValidateErrorList.new =
      (⟨xs⟩ : RodValidateErrorList) := by
    have he := foldl_push_errors xs []
    simp only [List.nil_append] at he
    calc xs.foldl RodValidateErrorList.push RodValidateErrorList.new
        = ⟨(xs.foldl RodValidateErrorList.push RodValidateErrorList.new).errors⟩ := rfl
      _ = ⟨xs⟩ := by rw [show (xs.foldl RodValidateErrorList.push
            RodValidateErrorList.new).errors = xs from he]
  rw [h]
  exact ⟨consumeIter_eq_reverse xs, rfl, fun i => rfl⟩

end Rod
